import Mathlib

/-
Verification of the jira-version-action workflow (src/index.ts).

The program is a GitHub Action that creates (or looks up) a Jira project
version via the Jira Cloud REST API.  We embed the workflow shallowly:

* JSON values are the inductive `Json`; the result of the JavaScript
  runtime primitive JSON.parse on a response body is supplied by the
  environment as an oracle field `bodyJson : Option Json` (none when the
  body is not parseable), together with the error message the runtime
  would raise in that case.
* Every HTTP call is answered by the environment `Env`:
  `Except.error msg` models a transport-level fault (the promise
  rejecting), `Except.ok r` a completed HTTP exchange carrying the
  status code and the body.
* The run is modelled as a function producing the ordered trace of
  observable events (secret registrations, log lines, HTTP calls,
  sleeps, outputs, the failure report).  The single top-level
  try/catch of `run` is modelled by threading an `Option String`
  "thrown exception" value, converted to a `setFailed` event at
  the end, exactly where the catch block sits in the source.
-/

set_option linter.unusedVariables false
set_option linter.unnecessarySeqFocus false

/-- Model of a JavaScript JSON value (JSON.parse output).  Numbers are kept
as integers: no claim inspects numeric values, and IEEE float behaviour is
out of scope. -/
inductive Json where
  | str : String → Json
  | num : Int → Json
  | bool : Bool → Json
  | null : Json
  | arr : List Json → Json
  | obj : List (String × Json) → Json

/-- First binding of a key in a JavaScript object literal, as produced by
JSON.parse (later duplicate keys are ignored by this model). -/
def lookupField : List (String × Json) → String → Option Json
  | [], _ => none
  | (k, v) :: rest, key => if k == key then some v else lookupField rest key

/-- JavaScript property read on a value that is not null/undefined:
objects yield the named field (or undefined = none); strings, numbers,
booleans and arrays have none of the properties this program reads. -/
def getField : Json → String → Option Json
  | .obj fields, k => lookupField fields k
  | _, _ => none

/-- JavaScript property read including the throwing case: reading any
property of null raises a TypeError.  (undefined cannot be produced by
JSON.parse, so null is the only throwing input here.) -/
def jsGetProp (j : Json) (k : String) : Except String (Option Json) :=
  match j with
  | .null => .error ("Cannot read properties of null (reading " ++ k ++ ")")
  | _ => .ok (getField j k)

/-- Strict equality test v.name === versionName used by the lookup scan:
true only when the property value is a string equal to the requested
name (case-sensitive, no normalization). -/
def strictEqStr : Option Json → String → Bool
  | some (.str s), n => s == n
  | _, _ => false

/-- True exactly on JSON objects. -/
def isObjB : Json → Bool
  | .obj _ => true
  | _ => false

/-- JSON string escaping as performed by JSON.stringify (the escapes this
program can actually produce; exotic control characters are left as-is,
which no claim observes). -/
def escapeChar (c : Char) : String :=
  if c = '"' then "\\\""
  else if c = '\\' then "\\\\"
  else if c = '\n' then "\\n"
  else if c = '\t' then "\\t"
  else if c = '\r' then "\\r"
  else String.singleton c

/-- Quote and escape a string for JSON output. -/
def jsStr (s : String) : String :=
  "\"" ++ String.join (s.data.map escapeChar) ++ "\""

/-- n spaces, for the 2-space indentation of JSON.stringify(x, null, 2). -/
def spaces (n : Nat) : String := String.mk (List.replicate n ' ')

mutual
/-- Models JSON.stringify(x, null, 2): pretty printing with two-space
indentation, as used for the error-details diagnostic. -/
def stringify2 (ind : Nat) : Json → String
  | .str s => jsStr s
  | .num n => toString n
  | .bool b => if b then "true" else "false"
  | .null => "null"
  | .arr [] => "[]"
  | .arr (x :: xs) =>
      "[\n" ++ stringify2Arr (ind + 2) (x :: xs) ++ "\n" ++ spaces ind ++ "]"
  | .obj [] => "\x7b\x7d"
  | .obj (f :: fs) =>
      "\x7b\n" ++ stringify2Obj (ind + 2) (f :: fs) ++ "\n" ++ spaces ind ++ "\x7d"

/-- Array items of the pretty printer, one per line. -/
def stringify2Arr (ind : Nat) : List Json → String
  | [] => ""
  | x :: rest =>
      spaces ind ++ stringify2 ind x ++
        (match rest with
         | [] => ""
         | _ => ",\n" ++ stringify2Arr ind rest)

/-- Object fields of the pretty printer, one per line. -/
def stringify2Obj (ind : Nat) : List (String × Json) → String
  | [] => ""
  | f :: rest =>
      spaces ind ++ jsStr f.1 ++ ": " ++ stringify2 ind f.2 ++
        (match rest with
         | [] => ""
         | _ => ",\n" ++ stringify2Obj ind rest)
end

mutual
/-- String conversion of a JavaScript value, as a template literal performs
it: strings stay, numbers and booleans print, null prints as null, arrays
join their elements with commas (null elements print empty), plain objects
print as [object Object]. -/
def jsDisplayVal : Json → String
  | .str s => s
  | .num n => toString n
  | .bool b => if b then "true" else "false"
  | .null => "null"
  | .arr xs => jsArrStr xs
  | .obj _ => "[object Object]"

/-- Array.prototype.toString: elements joined with commas, null rendered
as the empty string. -/
def jsArrStr : List Json → String
  | [] => ""
  | x :: rest =>
      (match x with
       | .null => ""
       | _ => jsDisplayVal x)
      ++ (match rest with
          | [] => ""
          | _ => "," ++ jsArrStr rest)
end

/-- Template-literal rendering of a possibly-undefined property value. -/
def jsDisplay : Option Json → String
  | none => "undefined"
  | some j => jsDisplayVal j

/-- The eight action inputs, after the platform input layer has parsed
them (getInput with default, getBooleanInput). -/
structure Inputs where
  jiraBaseUrl : String
  jiraProjectKey : String
  jiraUserEmail : String
  jiraApiToken : String
  versionName : String
  versionDescription : String
  released : Bool
  checkIfExists : Bool

/-- The outbound creation payload JiraVersionPayload of src/index.ts. -/
structure JiraVersionPayload where
  name : String
  description : String
  project : String
  released : Bool

/-- Build the payload from the inputs (src/index.ts lines 78-83). -/
def mkPayload (inp : Inputs) : JiraVersionPayload :=
  ⟨inp.versionName, inp.versionDescription, inp.jiraProjectKey, inp.released⟩

/-- JSON.stringify of the creation payload: key order follows the object
literal (name, description, project, released). -/
def stringifyPayload (p : JiraVersionPayload) : String :=
  "\x7b\"name\":" ++ jsStr p.name ++
  ",\"description\":" ++ jsStr p.description ++
  ",\"project\":" ++ jsStr p.project ++
  ",\"released\":" ++ (if p.released then "true" else "false") ++ "\x7d"

/-- Standard base64 alphabet. -/
def base64Alphabet : String :=
  "ABCDEFGHIJKLMNOPQRSTUVWXYZabcdefghijklmnopqrstuvwxyz0123456789+/"

/-- Character of a 6-bit group. -/
def b64Char (n : Nat) : Char := base64Alphabet.data.getD n 'A'

/-- Standard base64 of a byte sequence, with = padding, as
Buffer.toString base64 produces it. -/
def base64Encode : List Nat → String
  | [] => ""
  | [a] => String.mk [b64Char (a / 4), b64Char (a % 4 * 16)] ++ "=="
  | [a, b] =>
      String.mk [b64Char (a / 4), b64Char (a % 4 * 16 + b / 16),
                 b64Char (b % 16 * 4)] ++ "="
  | a :: b :: c :: rest =>
      String.mk [b64Char (a / 4), b64Char (a % 4 * 16 + b / 16),
                 b64Char (b % 16 * 4 + c / 64), b64Char (c % 64)] ++
      base64Encode rest

/-- UTF-8 bytes of a string (Buffer.from with default encoding). -/
def strBytes (s : String) : List Nat :=
  s.toUTF8.toList.map (fun b => b.toNat)

/-- The three request headers built once per run (src/index.ts 59-63). -/
structure Headers where
  authorization : String
  accept : String
  contentType : String

/-- Headers with the Basic credential from email:token (src/index.ts 49, 59-63). -/
def mkHeaders (inp : Inputs) : Headers :=
  ⟨"Basic " ++ base64Encode (strBytes (inp.jiraUserEmail ++ ":" ++ inp.jiraApiToken)),
   "application/json", "application/json"⟩

/-- One completed HTTP exchange as the environment reports it:
statusCode mirrors resp.message.statusCode (possibly undefined), bodyText
the raw body, bodyJson the oracle result of JSON.parse bodyText (none
when the body is not valid JSON), parseErrMsg the message of the
SyntaxError JSON.parse would raise in that case. -/
structure HttpResponse where
  statusCode : Option Nat
  bodyText : String
  bodyJson : Option Json
  parseErrMsg : String

/-- statusCode ?? 0, as computed at both call sites. -/
def HttpResponse.status (r : HttpResponse) : Nat := r.statusCode.getD 0

/-- The remote environment: the answer to the single GET and to the n-th
POST issued by the run (0-indexed).  Except.error is a transport fault. -/
structure Env where
  getResp : Except String HttpResponse
  postResps : Nat → Except String HttpResponse

/-- Observable events of a run, in program order. -/
inductive Event where
  | setSecret (value : String)
  | debug (msg : String)
  | info (msg : String)
  | warning (msg : String)
  | error (msg : String)
  | httpGet (url : String) (headers : Headers)
  | httpPost (url : String) (headers : Headers) (body : String)
  | sleep (ms : Nat)
  | setOutput (key : String) (value : Option Json)
  | setFailed (msg : String)

/-- URL of the version-listing endpoint (src/index.ts line 21). -/
def lookupUrl (inp : Inputs) : String :=
  inp.jiraBaseUrl ++ "/rest/api/3/project/" ++ inp.jiraProjectKey ++ "/versions"

/-- URL of the version-creation endpoint (src/index.ts line 50). -/
def versionUrl (inp : Inputs) : String :=
  inp.jiraBaseUrl ++ "/rest/api/3/version"

/-- Embeds getProjectVersions (src/index.ts 20-31): GET the listing URL;
a transport fault propagates; any non-200 status throws a crafted error;
otherwise the body is JSON.parsed (throwing on malformed JSON). -/
def getProjectVersions (inp : Inputs) (env : Env) (hdrs : Headers) :
    List Event × Except String Json :=
  let url := lookupUrl inp
  match env.getResp with
  | .error msg => ([.httpGet url hdrs], .error msg)
  | .ok resp =>
      if resp.status ≠ 200 then
        ([.httpGet url hdrs],
         .error ("Failed to fetch versions: HTTP " ++ toString resp.status))
      else
        match resp.bodyJson with
        | none => ([.httpGet url hdrs], .error resp.parseErrMsg)
        | some j => ([.httpGet url hdrs], .ok j)

/-- Embeds the callback scan versions.find(v => v.name === versionName)
(src/index.ts 35): linear scan for the first strict name match; reading
.name of a null element throws. -/
def findFirst (name : String) : List Json → Except String (Option Json)
  | [] => .ok none
  | v :: rest =>
      match jsGetProp v "name" with
      | .error e => .error e
      | .ok pv => if strictEqStr pv name then .ok (some v) else findFirst name rest

/-- Embeds findVersion (src/index.ts 33-36): fetch the listing, then scan.
JSON.parse output that is not an array has no find method, which throws. -/
def findVersion (inp : Inputs) (env : Env) (hdrs : Headers) :
    List Event × Except String (Option Json) :=
  match getProjectVersions inp env hdrs with
  | (evs, .error e) => (evs, .error e)
  | (evs, .ok (.arr items)) => (evs, findFirst inp.versionName items)
  | (evs, .ok _) => (evs, .error "versions.find is not a function")

/-- The rate-limit warning line (src/index.ts 96). -/
def warnMsg (waitMs attempt maxRetries : Nat) : String :=
  "Rate limit exceeded, retrying in " ++ toString waitMs ++ "ms (" ++
  toString attempt ++ "/" ++ toString maxRetries ++ ")"

/-- Embeds postWithRetry (src/index.ts 86-103).  The source is a
while(true) loop over a 1-based attempt counter; here attempt0 is the
number of POSTs already made, so the current attempt is attempt0 + 1.
On a 429 status within the retry budget the loop warns, sleeps
2^attempt * 1000 ms and retries with the identical url, headers and
body; any other status (or an exhausted budget) returns the response. -/
def postWithRetryGo (env : Env) (url : String) (hdrs : Headers) (bodyStr : String)
    (maxRetries attempt0 : Nat) : List Event × Except String HttpResponse :=
  match env.postResps attempt0 with
  | .error msg => ([.httpPost url hdrs bodyStr], .error msg)
  | .ok resp =>
      if h : resp.status = 429 ∧ attempt0 + 1 ≤ maxRetries then
        let waitMs := 2 ^ (attempt0 + 1) * 1000
        let tail := postWithRetryGo env url hdrs bodyStr maxRetries (attempt0 + 1)
        (.httpPost url hdrs bodyStr ::
         .warning (warnMsg waitMs (attempt0 + 1) maxRetries) ::
         .sleep waitMs :: tail.1, tail.2)
      else
        ([.httpPost url hdrs bodyStr], .ok resp)
termination_by maxRetries + 1 - attempt0
decreasing_by
  have := h.2
  omega

/-- The fixed failure report for a final status outside 200..299
(src/index.ts 118). -/
def httpFailMsg (status : Nat) : String :=
  "Version creation failed with HTTP " ++ toString status

/-- The fixed failure report for a malformed body on a success status
(src/index.ts 126). -/
def parseFailMsg : String := "Failed to parse Jira response as JSON."

/-- The two diagnostic lines about the failure body (src/index.ts
110-117): the pretty-printed parsed body when JSON.parse succeeds, the
raw body text when it throws. -/
def errBodyEvents (r : HttpResponse) : List Event :=
  match r.bodyJson with
  | some parsed => [.error "- Error details:", .error (stringify2 0 parsed)]
  | none => [.error "- Raw response:", .error r.bodyText]

/-- Embeds the response classification (src/index.ts 107-132): events it
emits, plus the exception it throws when the parsed body is null and the
success template reads .name of it.  A final status outside 200..299 logs
the status and the parsed (pretty-printed) or raw body, then reports
failure; a success status with a malformed body reports the distinct
parse failure; otherwise the outputs are set from the parsed body. -/
def classify (r : HttpResponse) : List Event × Option String :=
  if r.status < 200 ∨ 300 ≤ r.status then
    ([.error "Failed to create Jira version:",
      .error ("- Status: HTTP " ++ toString r.status)] ++
     errBodyEvents r ++
     [.setFailed (httpFailMsg r.status)], none)
  else
    match r.bodyJson with
    | none => ([.setFailed parseFailMsg], none)
    | some .null => ([], some "Cannot read properties of null (reading name)")
    | some data =>
        ([.info ("Version \"" ++ jsDisplay (getField data "name") ++
                 "\" created successfully"),
          .setOutput "version-id" (getField data "id"),
          .setOutput "version-url" (getField data "self")], none)

/-- The creation banner (src/index.ts 76). -/
def creatingMsg (inp : Inputs) : String :=
  "Creating version \"" ++ inp.versionName ++ "\" in project \"" ++
  inp.jiraProjectKey ++ "\"..."

/-- The lookup-hit banner (src/index.ts 69). -/
def foundMsg (inp : Inputs) : String :=
  "Version \"" ++ inp.versionName ++ "\" already exists in project \"" ++
  inp.jiraProjectKey ++ "\""

/-- Embeds the creation phase (src/index.ts 76-132): banner, serialized
payload POSTed through the retry primitive with maxRetries = 3, then
classification of the final response. -/
def creation (inp : Inputs) (env : Env) (hdrs : Headers) :
    List Event × Option String :=
  match postWithRetryGo env (versionUrl inp) hdrs (stringifyPayload (mkPayload inp)) 3 0 with
  | (evs, .error e) => (.info (creatingMsg inp) :: evs, some e)
  | (evs, .ok r) =>
      (.info (creatingMsg inp) :: evs ++ (classify r).1, (classify r).2)

/-- Embeds the body of run inside the try block, after the secret
masking and client setup (src/index.ts 66-132): the optional lookup,
whose hit sets the outputs and returns, whose miss falls through to
creation, and whose thrown errors propagate to the catch. -/
def runBody (inp : Inputs) (env : Env) : List Event × Option String :=
  if inp.checkIfExists then
    match findVersion inp env (mkHeaders inp) with
    | (evs, .error e) => (evs, some e)
    | (evs, .ok (some v)) =>
        (evs ++ [.info (foundMsg inp),
                 .setOutput "version-id" (getField v "id"),
                 .setOutput "version-url" (getField v "self")], none)
    | (evs, .ok none) =>
        (evs ++ (creation inp env (mkHeaders inp)).1,
         (creation inp env (mkHeaders inp)).2)
  else
    creation inp env (mkHeaders inp)

/-- The catch-block failure report (src/index.ts 135). -/
def topFailMsg (e : String) : String := "Action failed with error: " ++ e

/-- Embeds run (src/index.ts 38-137): register both secrets with the
masking sink, log the two debug lines, execute the body, and convert a
thrown error into the single catch-block failure report. -/
def run (inp : Inputs) (env : Env) : List Event :=
  Event.setSecret inp.jiraApiToken ::
  Event.setSecret inp.jiraUserEmail ::
  Event.debug "Secrets masked in logs" ::
  Event.debug ("Initializing HTTP client for " ++ inp.jiraBaseUrl) ::
  (match runBody inp env with
   | (evs, none) => evs
   | (evs, some e) => evs ++ [.setFailed (topFailMsg e)])

/-- Output pairs set during a trace, in order. -/
def outputsOf : List Event → List (String × Option Json)
  | [] => []
  | .setOutput k v :: rest => (k, v) :: outputsOf rest
  | _ :: rest => outputsOf rest

/-- Whether the run reported failure. -/
def hasFailed : List Event → Bool
  | [] => false
  | .setFailed _ :: _ => true
  | _ :: rest => hasFailed rest

/-- Number of POST calls issued during a trace. -/
def countPosts : List Event → Nat
  | [] => 0
  | .httpPost _ _ _ :: rest => countPosts rest + 1
  | _ :: rest => countPosts rest

/-- The POST events of a trace, in order. -/
def postEventsOf : List Event → List Event
  | [] => []
  | .httpPost u h b :: rest => .httpPost u h b :: postEventsOf rest
  | _ :: rest => postEventsOf rest

/-- The backoff sleeps of a trace, in milliseconds, in order. -/
def sleepsOf : List Event → List Nat
  | [] => []
  | .sleep n :: rest => n :: sleepsOf rest
  | _ :: rest => sleepsOf rest

/-- Events the retry loop itself can emit. -/
def isRetryEvent : Event → Bool
  | .httpPost _ _ _ => true
  | .warning _ => true
  | .sleep _ => true
  | _ => false

theorem outputsOf_append (a b : List Event) :
    outputsOf (a ++ b) = outputsOf a ++ outputsOf b := by
  induction a with
  | nil => rfl
  | cons e rest ih => cases e <;> simp [outputsOf, ih]

theorem hasFailed_append (a b : List Event) :
    hasFailed (a ++ b) = (hasFailed a || hasFailed b) := by
  induction a with
  | nil => rfl
  | cons e rest ih => cases e <;> simp [hasFailed, ih]

theorem countPosts_append (a b : List Event) :
    countPosts (a ++ b) = countPosts a + countPosts b := by
  induction a with
  | nil => simp [countPosts]
  | cons e rest ih => cases e <;> simp [countPosts, ih] <;> omega

theorem postEventsOf_append (a b : List Event) :
    postEventsOf (a ++ b) = postEventsOf a ++ postEventsOf b := by
  induction a with
  | nil => rfl
  | cons e rest ih => cases e <;> simp [postEventsOf, ih]

theorem sleepsOf_append (a b : List Event) :
    sleepsOf (a ++ b) = sleepsOf a ++ sleepsOf b := by
  induction a with
  | nil => rfl
  | cons e rest ih => cases e <;> simp [sleepsOf, ih]

theorem retry_fault (env : Env) (u : String) (hd : Headers) (b : String)
    (mr a : Nat) (msg : String) (h : env.postResps a = .error msg) :
    postWithRetryGo env u hd b mr a = ([.httpPost u hd b], .error msg) := by
  rw [postWithRetryGo, h]

theorem retry_done (env : Env) (u : String) (hd : Headers) (b : String)
    (mr a : Nat) (r : HttpResponse) (h1 : env.postResps a = .ok r)
    (h2 : ¬(r.status = 429 ∧ a + 1 ≤ mr)) :
    postWithRetryGo env u hd b mr a = ([.httpPost u hd b], .ok r) := by
  rw [postWithRetryGo, h1]
  exact dif_neg h2

theorem retry_again (env : Env) (u : String) (hd : Headers) (b : String)
    (mr a : Nat) (r : HttpResponse) (h1 : env.postResps a = .ok r)
    (h2 : r.status = 429) (h3 : a + 1 ≤ mr) :
    postWithRetryGo env u hd b mr a =
      (Event.httpPost u hd b ::
       Event.warning (warnMsg (2 ^ (a + 1) * 1000) (a + 1) mr) ::
       Event.sleep (2 ^ (a + 1) * 1000) ::
       (postWithRetryGo env u hd b mr (a + 1)).1,
       (postWithRetryGo env u hd b mr (a + 1)).2) := by
  rw [postWithRetryGo, h1]
  exact dif_pos ⟨h2, h3⟩

/-- The retry loop emits only POST, warning and sleep events. -/
theorem retry_events_flat (env : Env) (u : String) (hd : Headers) (b : String)
    (mr : Nat) :
    ∀ n a, mr ≤ a + n →
      ((postWithRetryGo env u hd b mr a).1).all isRetryEvent = true := by
  intro n
  induction n with
  | zero =>
      intro a ha
      cases henv : env.postResps a with
      | error msg => rw [retry_fault env u hd b mr a msg henv]; rfl
      | ok resp =>
          rw [retry_done env u hd b mr a resp henv (by omega)]
          rfl
  | succ n ih =>
      intro a ha
      cases henv : env.postResps a with
      | error msg => rw [retry_fault env u hd b mr a msg henv]; rfl
      | ok resp =>
          by_cases hc : resp.status = 429 ∧ a + 1 ≤ mr
          · rw [retry_again env u hd b mr a resp henv hc.1 hc.2]
            simp only [List.all_cons, isRetryEvent, Bool.true_and]
            exact ih (a + 1) (by omega)
          · rw [retry_done env u hd b mr a resp henv hc]
            rfl

theorem outputsOf_of_flat {l : List Event} (h : l.all isRetryEvent = true) :
    outputsOf l = [] := by
  induction l with
  | nil => rfl
  | cons e rest ih =>
      simp only [List.all_cons, Bool.and_eq_true] at h
      cases e <;> simp_all [isRetryEvent, outputsOf, List.filterMap_cons]

theorem hasFailed_of_flat {l : List Event} (h : l.all isRetryEvent = true) :
    hasFailed l = false := by
  induction l with
  | nil => rfl
  | cons e rest ih =>
      simp only [List.all_cons, Bool.and_eq_true] at h
      cases e <;> simp_all [isRetryEvent, hasFailed, List.any_cons]

/-- Attempt budget: from attempt count a with mr ≤ a + n, the loop makes at
most n + 1 further POST calls, whatever the responses are. -/
theorem retry_count_le (env : Env) (u : String) (hd : Headers) (b : String)
    (mr : Nat) :
    ∀ n a, mr ≤ a + n →
      countPosts (postWithRetryGo env u hd b mr a).1 ≤ n + 1 := by
  intro n
  induction n with
  | zero =>
      intro a ha
      cases henv : env.postResps a with
      | error msg =>
          rw [retry_fault env u hd b mr a msg henv]; simp [countPosts]
      | ok resp =>
          rw [retry_done env u hd b mr a resp henv (by omega)]
          simp [countPosts]
  | succ n ih =>
      intro a ha
      cases henv : env.postResps a with
      | error msg =>
          rw [retry_fault env u hd b mr a msg henv]; simp [countPosts]
      | ok resp =>
          by_cases hc : resp.status = 429 ∧ a + 1 ≤ mr
          · rw [retry_again env u hd b mr a resp henv hc.1 hc.2]
            have := ih (a + 1) (by omega)
            simp [countPosts, List.countP_cons] at this ⊢
            omega
          · rw [retry_done env u hd b mr a resp henv hc]
            simp [countPosts]

/-- A scan of k straight 429 responses within the budget followed by a
non-429 response: the loop makes exactly k + 1 POSTs and returns that
non-429 response unchanged. -/
theorem retry_scan (env : Env) (u : String) (hd : Headers) (b : String)
    (mr : Nat) :
    ∀ k a (r : HttpResponse), a + k ≤ mr →
      (∀ i, i < k → ∃ ri, env.postResps (a + i) = .ok ri ∧ ri.status = 429) →
      env.postResps (a + k) = .ok r → r.status ≠ 429 →
      (postWithRetryGo env u hd b mr a).2 = .ok r ∧
      countPosts (postWithRetryGo env u hd b mr a).1 = k + 1 := by
  intro k
  induction k with
  | zero =>
      intro a r _ _ hr hs
      rw [retry_done env u hd b mr a r (by simpa using hr) (fun hh => hs hh.1)]
      simp [countPosts]
  | succ k ih =>
      intro a r hle h429 hr hs
      obtain ⟨r0, hp0, hs0⟩ := h429 0 (Nat.succ_pos k)
      rw [Nat.add_zero] at hp0
      rw [retry_again env u hd b mr a r0 hp0 hs0 (by omega)]
      have hrec := ih (a + 1) r (by omega)
        (fun i hi => by
          obtain ⟨ri, hpi, hsi⟩ := h429 (i + 1) (by omega)
          exact ⟨ri, by rw [show a + 1 + i = a + (i + 1) by omega]; exact hpi, hsi⟩)
        (by rw [show a + 1 + k = a + (k + 1) by omega]; exact hr) hs
      refine ⟨hrec.1, ?_⟩
      simp [countPosts, List.countP_cons] at hrec ⊢
      omega

/-- Whether s occurs as a contiguous substring of t (character lists). -/
def isSubstr (s : List Char) : List Char → Bool
  | [] => s.isEmpty
  | c :: rest => s.isPrefixOf (c :: rest) || isSubstr s rest

/-- Modelled from the spec: the secret-masking facility of the host
platform (an external collaborator, spec section 6) replaces every
occurrence of a registered secret in a log line with three asterisks.
This is the replacement on character lists, leftmost-first. -/
def maskOneL (s : List Char) : List Char → List Char
  | [] => []
  | c :: rest =>
      if s ≠ [] ∧ s.isPrefixOf (c :: rest) then
        '*' :: '*' :: '*' :: maskOneL s (List.drop (s.length - 1) rest)
      else
        c :: maskOneL s rest
termination_by t => t.length
decreasing_by
  · simp [List.length_drop]; omega
  · simp

theorem maskOneL_nil (s : List Char) : maskOneL s [] = [] := by
  rw [maskOneL]

theorem maskOneL_cons_hit (s : List Char) (c : Char) (rest : List Char)
    (h : s ≠ [] ∧ s.isPrefixOf (c :: rest)) :
    maskOneL s (c :: rest) =
      '*' :: '*' :: '*' :: maskOneL s (List.drop (s.length - 1) rest) := by
  rw [maskOneL]
  exact if_pos h

theorem maskOneL_cons_miss (s : List Char) (c : Char) (rest : List Char)
    (h : ¬(s ≠ [] ∧ s.isPrefixOf (c :: rest))) :
    maskOneL s (c :: rest) = c :: maskOneL s rest := by
  rw [maskOneL]
  exact if_neg h

/-- A nonempty asterisk-free word that is a prefix of a masked text was
already a prefix of the unmasked text. -/
theorem pre_of_mask :
    ∀ (t x u : List Char), x ≠ [] → (∀ c ∈ x, c ≠ '*') →
      x.isPrefixOf (maskOneL u t) = true → x.isPrefixOf t = true := by
  intro t
  induction t with
  | nil =>
      intro x u hx hstar h
      rw [maskOneL_nil] at h
      cases x with
      | nil => exact absurd rfl hx
      | cons a as => simp [List.isPrefixOf] at h
  | cons c rest ih =>
      intro x u hx hstar h
      by_cases hm : u ≠ [] ∧ u.isPrefixOf (c :: rest)
      · rw [maskOneL_cons_hit u c rest hm] at h
        cases x with
        | nil => exact absurd rfl hx
        | cons a as =>
            simp [List.isPrefixOf, Bool.and_eq_true, beq_iff_eq] at h
            exact absurd h.1 (hstar a (by simp))
      · rw [maskOneL_cons_miss u c rest hm] at h
        cases x with
        | nil => exact absurd rfl hx
        | cons a as =>
            simp only [List.isPrefixOf, Bool.and_eq_true, beq_iff_eq] at h ⊢
            refine ⟨h.1, ?_⟩
            cases as with
            | nil => simp [List.isPrefixOf]
            | cons b bs =>
                exact ih (b :: bs) u (by simp)
                  (fun d hd => hstar d (List.mem_cons_of_mem a hd)) h.2

/-- A nonempty asterisk-free word is never a prefix of a text starting
with an asterisk. -/
theorem not_pre_star {s : List Char} (hs : s ≠ [])
    (hstar : ∀ c ∈ s, c ≠ '*') (l : List Char) :
    s.isPrefixOf ('*' :: l) = false := by
  cases s with
  | nil => exact absurd rfl hs
  | cons a as =>
      have ha : a ≠ '*' := hstar a (by simp)
      simp [List.isPrefixOf, ha]

/-- If s does not occur in t, it does not occur in any suffix of t. -/
theorem isSubstr_drop (s : List Char) :
    ∀ (t : List Char) (n : Nat), isSubstr s t = false →
      isSubstr s (List.drop n t) = false := by
  intro t
  induction t with
  | nil => intro n h; simpa using h
  | cons c rest ih =>
      intro n h
      cases n with
      | zero => exact h
      | succ n =>
          simp only [isSubstr, Bool.or_eq_false_iff] at h
          exact ih n h.2

/-- Masking a secret removes every occurrence of it: the masked text no
longer contains the (nonempty, asterisk-free) secret. -/
theorem mask_self_clean :
    ∀ (n : Nat) (t s : List Char), t.length ≤ n → s ≠ [] →
      (∀ c ∈ s, c ≠ '*') → isSubstr s (maskOneL s t) = false := by
  intro n
  induction n with
  | zero =>
      intro t s ht hs hstar
      have : t = [] := List.eq_nil_of_length_eq_zero (Nat.le_zero.mp ht)
      subst this
      rw [maskOneL_nil]
      simpa [isSubstr, List.isEmpty_iff] using hs
  | succ n ih =>
      intro t s ht hs hstar
      cases t with
      | nil =>
          rw [maskOneL_nil]
          simpa [isSubstr, List.isEmpty_iff] using hs
      | cons c rest =>
          by_cases hm : s ≠ [] ∧ s.isPrefixOf (c :: rest)
          · rw [maskOneL_cons_hit s c rest hm]
            have hdrop :
                isSubstr s (maskOneL s (List.drop (s.length - 1) rest)) = false := by
              apply ih
              · have := List.length_drop (s.length - 1) rest
                simp only [List.length_cons] at ht
                omega
              · exact hs
              · exact hstar
            simp only [isSubstr, Bool.or_eq_false_iff]
            exact ⟨not_pre_star hs hstar _,
                   ⟨not_pre_star hs hstar _, ⟨not_pre_star hs hstar _, hdrop⟩⟩⟩
          · rw [maskOneL_cons_miss s c rest hm]
            have hrest : isSubstr s (maskOneL s rest) = false := by
              apply ih rest s _ hs hstar
              simp only [List.length_cons] at ht
              omega
            simp only [isSubstr, Bool.or_eq_false_iff]
            refine ⟨?_, hrest⟩
            cases hpre : (s.isPrefixOf (c :: maskOneL s rest)) with
            | false => rfl
            | true =>
                exfalso
                cases s with
                | nil => exact hs rfl
                | cons a as =>
                    simp only [List.isPrefixOf, Bool.and_eq_true, beq_iff_eq] at hpre
                    have hnotpre : (a :: as).isPrefixOf (c :: rest) = false := by
                      cases hq : (a :: as).isPrefixOf (c :: rest) with
                      | false => rfl
                      | true => exact absurd ⟨by simp, hq⟩ hm
                    cases as with
                    | nil =>
                        simp [List.isPrefixOf, hpre.1] at hnotpre
                    | cons b bs =>
                        have hbs : (b :: bs).isPrefixOf rest = true :=
                          pre_of_mask rest (b :: bs) (a :: b :: bs) (by simp)
                            (fun d hd => hstar d (List.mem_cons_of_mem a hd)) hpre.2
                        simp [List.isPrefixOf, hpre.1, hbs] at hnotpre
  
/-- Masking any secret never introduces a new occurrence of an
asterisk-free word that was absent before. -/
theorem mask_keep_clean :
    ∀ (n : Nat) (t s u : List Char), t.length ≤ n → (∀ c ∈ s, c ≠ '*') →
      isSubstr s t = false → isSubstr s (maskOneL u t) = false := by
  intro n
  induction n with
  | zero =>
      intro t s u ht hstar h
      have : t = [] := List.eq_nil_of_length_eq_zero (Nat.le_zero.mp ht)
      subst this
      rwa [maskOneL_nil]
  | succ n ih =>
      intro t s u ht hstar h
      cases t with
      | nil => rwa [maskOneL_nil]
      | cons c rest =>
          have hs : s ≠ [] := by
            intro hnil
            subst hnil
            simp [isSubstr, List.isPrefixOf] at h
          simp only [isSubstr, Bool.or_eq_false_iff] at h
          by_cases hm : u ≠ [] ∧ u.isPrefixOf (c :: rest)
          · rw [maskOneL_cons_hit u c rest hm]
            have hdrop :
                isSubstr s (maskOneL u (List.drop (u.length - 1) rest)) = false := by
              apply ih
              · have := List.length_drop (u.length - 1) rest
                simp only [List.length_cons] at ht
                omega
              · exact hstar
              · exact isSubstr_drop s rest (u.length - 1) h.2
            simp only [isSubstr, Bool.or_eq_false_iff]
            exact ⟨not_pre_star hs hstar _,
                   ⟨not_pre_star hs hstar _, ⟨not_pre_star hs hstar _, hdrop⟩⟩⟩
          · rw [maskOneL_cons_miss u c rest hm]
            have hrest : isSubstr s (maskOneL u rest) = false := by
              apply ih rest s u _ hstar h.2
              simp only [List.length_cons] at ht
              omega
            simp only [isSubstr, Bool.or_eq_false_iff]
            refine ⟨?_, hrest⟩
            cases hpre : (s.isPrefixOf (c :: maskOneL u rest)) with
            | false => rfl
            | true =>
                exfalso
                cases s with
                | nil => exact hs rfl
                | cons a as =>
                    simp only [List.isPrefixOf, Bool.and_eq_true, beq_iff_eq] at hpre
                    cases as with
                    | nil =>
                        simp [List.isPrefixOf, hpre.1] at h
                    | cons b bs =>
                        have hbs : (b :: bs).isPrefixOf rest = true :=
                          pre_of_mask rest (b :: bs) u (by simp)
                            (fun d hd => hstar d (List.mem_cons_of_mem a hd)) hpre.2
                        simp [List.isPrefixOf, hpre.1, hbs] at h

/-- String-level masking of one registered secret. -/
def maskStr (s t : String) : String := String.mk (maskOneL s.data t.data)

/-- Modelled from the spec: the platform log sink applies the masking of
every secret registered so far, in registration order, to a line before
emitting it (spec section 6, secret-masking sink). -/
def maskAll (secrets : List String) (m : String) : String :=
  secrets.foldl (fun acc sec => maskStr sec acc) m

/-- Whether the string s occurs in cleartext inside t. -/
def occursIn (s t : String) : Bool := isSubstr s.data t.data

/-- The secret contains no asterisk (the masking replacement character). -/
def noStar (s : String) : Bool := s.data.all (fun c => !(c == '*'))

/-- The text of an event that reaches the log/diagnostic sink. -/
def logText : Event → Option String
  | .debug m => some m
  | .info m => some m
  | .warning m => some m
  | .error m => some m
  | .setFailed m => some m
  | _ => none

/-- The lines actually emitted by the diagnostic sink for a trace: each
log text is masked with the secrets registered before it. -/
def emittedAux (secrets : List String) : List Event → List String
  | [] => []
  | e :: rest =>
      match e with
      | .setSecret v => emittedAux (secrets ++ [v]) rest
      | _ =>
          match logText e with
          | some m => maskAll secrets m :: emittedAux secrets rest
          | none => emittedAux secrets rest

/-- The emitted log of a whole trace. -/
def emitted (tr : List Event) : List String := emittedAux [] tr

theorem maskAll_keeps (s : String) (hstar : ∀ c ∈ s.data, c ≠ '*') :
    ∀ (secrets : List String) (m : String),
      occursIn s m = false → occursIn s (maskAll secrets m) = false := by
  intro secrets
  induction secrets with
  | nil => intro m h; exact h
  | cons u rest ih =>
      intro m h
      exact ih (maskStr u m)
        (mask_keep_clean m.data.length m.data s.data u.data le_rfl hstar h)

theorem maskAll_clean (s : String) (hne : s.data ≠ [])
    (hstar : ∀ c ∈ s.data, c ≠ '*') :
    ∀ (secrets : List String) (m : String), s ∈ secrets →
      occursIn s (maskAll secrets m) = false := by
  intro secrets
  induction secrets with
  | nil => intro m h; cases h
  | cons u rest ih =>
      intro m hmem
      rcases List.mem_cons.mp hmem with heq | hmem2
      · subst heq
        exact maskAll_keeps s hstar rest (maskStr s m)
          (mask_self_clean m.data.length m.data s.data le_rfl hne hstar)
      · exact ih (maskStr u m) hmem2

/-- Once a secret is registered, it never appears in cleartext in any
later emitted line, whatever the trace contains. -/
theorem emitted_safe (s : String) (hne : s.data ≠ [])
    (hstar : ∀ c ∈ s.data, c ≠ '*') :
    ∀ (evs : List Event) (secrets : List String), s ∈ secrets →
      ∀ m ∈ emittedAux secrets evs, occursIn s m = false := by
  intro evs
  induction evs with
  | nil => intro secrets _ m hm; simp [emittedAux] at hm
  | cons e rest ih =>
      intro secrets hsec m hm
      cases e with
      | setSecret v =>
          exact ih (secrets ++ [v]) (List.mem_append_left _ hsec) m hm
      | debug msg =>
          rcases List.mem_cons.mp hm with h | h
          · subst h; exact maskAll_clean s hne hstar secrets msg hsec
          · exact ih secrets hsec m h
      | info msg =>
          rcases List.mem_cons.mp hm with h | h
          · subst h; exact maskAll_clean s hne hstar secrets msg hsec
          · exact ih secrets hsec m h
      | warning msg =>
          rcases List.mem_cons.mp hm with h | h
          · subst h; exact maskAll_clean s hne hstar secrets msg hsec
          · exact ih secrets hsec m h
      | error msg =>
          rcases List.mem_cons.mp hm with h | h
          · subst h; exact maskAll_clean s hne hstar secrets msg hsec
          · exact ih secrets hsec m h
      | setFailed msg =>
          rcases List.mem_cons.mp hm with h | h
          · subst h; exact maskAll_clean s hne hstar secrets msg hsec
          · exact ih secrets hsec m h
      | httpGet u hd => exact ih secrets hsec m hm
      | httpPost u hd b => exact ih secrets hsec m hm
      | sleep n => exact ih secrets hsec m hm
      | setOutput k v => exact ih secrets hsec m hm

theorem classify_httpfail (r : HttpResponse)
    (hst : r.status < 200 ∨ 300 ≤ r.status) :
    classify r =
      ([.error "Failed to create Jira version:",
        .error ("- Status: HTTP " ++ toString r.status)] ++
       errBodyEvents r ++ [.setFailed (httpFailMsg r.status)], none) := by
  unfold classify
  rw [if_pos hst]

theorem classify_parsefail (r : HttpResponse)
    (hst : ¬(r.status < 200 ∨ 300 ≤ r.status)) (hb : r.bodyJson = none) :
    classify r = ([.setFailed parseFailMsg], none) := by
  unfold classify
  rw [if_neg hst, hb]

theorem classify_nullbody (r : HttpResponse)
    (hst : ¬(r.status < 200 ∨ 300 ≤ r.status)) (hb : r.bodyJson = some Json.null) :
    classify r = ([], some "Cannot read properties of null (reading name)") := by
  unfold classify
  rw [if_neg hst, hb]

theorem classify_success (r : HttpResponse)
    (hst : ¬(r.status < 200 ∨ 300 ≤ r.status)) (j : Json)
    (hb : r.bodyJson = some j) (hnn : j ≠ Json.null) :
    classify r =
      ([.info ("Version \"" ++ jsDisplay (getField j "name") ++
               "\" created successfully"),
        .setOutput "version-id" (getField j "id"),
        .setOutput "version-url" (getField j "self")], none) := by
  unfold classify
  rw [if_neg hst, hb]
  cases j with
  | null => exact absurd rfl hnn
  | str s => rfl
  | num n => rfl
  | bool b => rfl
  | arr xs => rfl
  | obj fs => rfl

theorem errBody_outputs (r : HttpResponse) : outputsOf (errBodyEvents r) = [] := by
  unfold errBodyEvents
  cases r.bodyJson <;> rfl

theorem errBody_posts (r : HttpResponse) : countPosts (errBodyEvents r) = 0 := by
  unfold errBodyEvents
  cases r.bodyJson <;> rfl

theorem getPV_events (inp : Inputs) (env : Env) (hdrs : Headers) :
    (getProjectVersions inp env hdrs).1 = [Event.httpGet (lookupUrl inp) hdrs] := by
  unfold getProjectVersions
  cases h : env.getResp with
  | error m => rfl
  | ok r =>
      by_cases hs : r.status ≠ 200
      · simp [hs]
      · cases hb : r.bodyJson <;> simp [hs, hb]

theorem findVersion_events (inp : Inputs) (env : Env) (hdrs : Headers) :
    (findVersion inp env hdrs).1 = [Event.httpGet (lookupUrl inp) hdrs] := by
  have hg := getPV_events inp env hdrs
  unfold findVersion
  cases hp : getProjectVersions inp env hdrs with
  | mk evs res =>
      rw [hp] at hg
      simp only at hg
      cases res with
      | error e => simpa using hg
      | ok j => cases j <;> simpa using hg

theorem getPV_non200 (inp : Inputs) (env : Env) (hdrs : Headers)
    (r : HttpResponse) (hresp : env.getResp = .ok r) (hs : r.status ≠ 200) :
    getProjectVersions inp env hdrs =
      ([Event.httpGet (lookupUrl inp) hdrs],
       .error ("Failed to fetch versions: HTTP " ++ toString r.status)) := by
  unfold getProjectVersions
  rw [hresp]
  simp [hs]

theorem getPV_ok (inp : Inputs) (env : Env) (hdrs : Headers)
    (r : HttpResponse) (j : Json) (hresp : env.getResp = .ok r)
    (hs : r.status = 200) (hb : r.bodyJson = some j) :
    getProjectVersions inp env hdrs =
      ([Event.httpGet (lookupUrl inp) hdrs], .ok j) := by
  unfold getProjectVersions
  rw [hresp]
  simp [hs, hb]

theorem getPV_fault (inp : Inputs) (env : Env) (hdrs : Headers)
    (msg : String) (hresp : env.getResp = .error msg) :
    getProjectVersions inp env hdrs =
      ([Event.httpGet (lookupUrl inp) hdrs], .error msg) := by
  unfold getProjectVersions
  rw [hresp]

theorem findVersion_err (inp : Inputs) (env : Env) (hdrs : Headers)
    (evs : List Event) (e : String)
    (h : getProjectVersions inp env hdrs = (evs, .error e)) :
    findVersion inp env hdrs = (evs, .error e) := by
  unfold findVersion
  rw [h]

theorem findVersion_arr (inp : Inputs) (env : Env) (hdrs : Headers)
    (evs : List Event) (items : List Json)
    (h : getProjectVersions inp env hdrs = (evs, .ok (Json.arr items))) :
    findVersion inp env hdrs = (evs, findFirst inp.versionName items) := by
  unfold findVersion
  rw [h]

/-- On a list of objects the scan never throws and computes exactly the
first element whose name field strictly equals the requested name. -/
theorem findFirst_eq_find (name : String) :
    ∀ items : List Json, (∀ j ∈ items, isObjB j = true) →
      findFirst name items =
        .ok (items.find? (fun j => strictEqStr (getField j "name") name)) := by
  intro items
  induction items with
  | nil => intro _; rfl
  | cons v rest ih =>
      intro hall
      have hv : isObjB v = true := hall v (by simp)
      have hstep : jsGetProp v "name" = .ok (getField v "name") := by
        cases v with
        | null => simp [isObjB] at hv
        | str s => rfl
        | num n => rfl
        | bool b => rfl
        | arr xs => rfl
        | obj fs => rfl
      unfold findFirst
      rw [hstep]
      show (if strictEqStr (getField v "name") name = true then
              Except.ok (some v) else findFirst name rest) = _
      by_cases hm : strictEqStr (getField v "name") name = true
      · rw [if_pos hm]
        simp [List.find?_cons, hm]
      · have hm2 : strictEqStr (getField v "name") name = false :=
          Bool.eq_false_iff.mpr hm
        rw [if_neg hm]
        simp only [List.find?_cons, hm2]
        exact ih (fun j hj => hall j (List.mem_cons_of_mem _ hj))

theorem creation_resolved (inp : Inputs) (env : Env) (hdrs : Headers)
    (evs : List Event) (r : HttpResponse)
    (hp : postWithRetryGo env (versionUrl inp) hdrs
            (stringifyPayload (mkPayload inp)) 3 0 = (evs, .ok r)) :
    creation inp env hdrs =
      (.info (creatingMsg inp) :: evs ++ (classify r).1, (classify r).2) := by
  unfold creation
  rw [hp]

theorem creation_fault (inp : Inputs) (env : Env) (hdrs : Headers)
    (evs : List Event) (e : String)
    (hp : postWithRetryGo env (versionUrl inp) hdrs
            (stringifyPayload (mkPayload inp)) 3 0 = (evs, .error e)) :
    creation inp env hdrs = (.info (creatingMsg inp) :: evs, some e) := by
  unfold creation
  rw [hp]

theorem runBody_nocheck (inp : Inputs) (env : Env)
    (h : inp.checkIfExists = false) :
    runBody inp env = creation inp env (mkHeaders inp) := by
  unfold runBody
  rw [h]
  simp

theorem runBody_check_err (inp : Inputs) (env : Env) (evs : List Event)
    (e : String) (hch : inp.checkIfExists = true)
    (h : findVersion inp env (mkHeaders inp) = (evs, .error e)) :
    runBody inp env = (evs, some e) := by
  unfold runBody
  rw [hch, h]
  rfl

theorem runBody_check_found (inp : Inputs) (env : Env) (evs : List Event)
    (v : Json) (hch : inp.checkIfExists = true)
    (h : findVersion inp env (mkHeaders inp) = (evs, .ok (some v))) :
    runBody inp env =
      (evs ++ [.info (foundMsg inp),
               .setOutput "version-id" (getField v "id"),
               .setOutput "version-url" (getField v "self")], none) := by
  unfold runBody
  rw [hch, h]
  rfl

theorem runBody_check_miss (inp : Inputs) (env : Env) (evs : List Event)
    (hch : inp.checkIfExists = true)
    (h : findVersion inp env (mkHeaders inp) = (evs, .ok none)) :
    runBody inp env =
      (evs ++ (creation inp env (mkHeaders inp)).1,
       (creation inp env (mkHeaders inp)).2) := by
  unfold runBody
  rw [hch, h]
  rfl

theorem run_nofail (inp : Inputs) (env : Env) (evs : List Event)
    (h : runBody inp env = (evs, none)) :
    run inp env =
      Event.setSecret inp.jiraApiToken ::
      Event.setSecret inp.jiraUserEmail ::
      Event.debug "Secrets masked in logs" ::
      Event.debug ("Initializing HTTP client for " ++ inp.jiraBaseUrl) :: evs := by
  unfold run
  rw [h]

theorem run_fail (inp : Inputs) (env : Env) (evs : List Event) (e : String)
    (h : runBody inp env = (evs, some e)) :
    run inp env =
      Event.setSecret inp.jiraApiToken ::
      Event.setSecret inp.jiraUserEmail ::
      Event.debug "Secrets masked in logs" ::
      Event.debug ("Initializing HTTP client for " ++ inp.jiraBaseUrl) ::
      (evs ++ [.setFailed (topFailMsg e)]) := by
  unfold run
  rw [h]

/-- A first response that is not 429 ends the loop at once. -/
theorem retry_single (env : Env) (u : String) (hd : Headers) (b : String)
    (r : HttpResponse) (h0 : env.postResps 0 = .ok r) (hne : r.status ≠ 429) :
    postWithRetryGo env u hd b 3 0 = ([.httpPost u hd b], .ok r) :=
  retry_done env u hd b 3 0 r h0 (fun hh => hne hh.1)

theorem classify_posts (r : HttpResponse) : countPosts (classify r).1 = 0 := by
  have hb := errBody_posts r
  by_cases hst : r.status < 200 ∨ 300 ≤ r.status
  · rw [classify_httpfail r hst]
    simp [countPosts, countPosts_append] at hb ⊢
    exact hb
  · cases hj : r.bodyJson with
    | none => rw [classify_parsefail r hst hj]; rfl
    | some j =>
        by_cases hnn : j = Json.null
        · subst hnn; rw [classify_nullbody r hst hj]; rfl
        · rw [classify_success r hst j hj hnn]; rfl

theorem creation_posts (inp : Inputs) (env : Env) (hdrs : Headers) :
    countPosts (creation inp env hdrs).1 ≤ 4 := by
  cases hp : postWithRetryGo env (versionUrl inp) hdrs
      (stringifyPayload (mkPayload inp)) 3 0 with
  | mk evs res =>
      have hev : countPosts evs ≤ 4 := by
        have h := retry_count_le env (versionUrl inp) hdrs
          (stringifyPayload (mkPayload inp)) 3 3 0 (by omega)
        rw [hp] at h
        simpa using h
      cases res with
      | error e =>
          rw [creation_fault inp env hdrs evs e hp]
          simpa [countPosts] using hev
      | ok r =>
          rw [creation_resolved inp env hdrs evs r hp]
          have hc := classify_posts r
          simp [countPosts, countPosts_append, hc]
          exact hev

theorem runBody_posts (inp : Inputs) (env : Env) :
    countPosts (runBody inp env).1 ≤ 4 := by
  cases hch : inp.checkIfExists with
  | false =>
      rw [runBody_nocheck inp env hch]
      exact creation_posts inp env (mkHeaders inp)
  | true =>
      cases hf : findVersion inp env (mkHeaders inp) with
      | mk evs res =>
          have hevs : evs = [Event.httpGet (lookupUrl inp) (mkHeaders inp)] := by
            have := findVersion_events inp env (mkHeaders inp)
            rw [hf] at this
            simpa using this
          subst hevs
          cases res with
          | error e =>
              rw [runBody_check_err inp env _ e hch hf]
              simp [countPosts]
          | ok vo =>
              cases vo with
              | none =>
                  rw [runBody_check_miss inp env _ hch hf]
                  have := creation_posts inp env (mkHeaders inp)
                  simp [countPosts, countPosts_append]
                  exact this
              | some v =>
                  rw [runBody_check_found inp env _ v hch hf]
                  simp [countPosts, countPosts_append]

theorem run_posts_le (inp : Inputs) (env : Env) : countPosts (run inp env) ≤ 4 := by
  have hb := runBody_posts inp env
  cases hr : runBody inp env with
  | mk evs exn =>
      rw [hr] at hb
      simp only at hb
      cases exn with
      | none =>
          rw [run_nofail inp env evs hr]
          simpa [countPosts] using hb
      | some e =>
          rw [run_fail inp env evs e hr]
          simp [countPosts, countPosts_append]
          exact hb

theorem classify_c7 (r : HttpResponse) :
    outputsOf (classify r).1 = [] ∨
    ((classify r).2 = none ∧ hasFailed (classify r).1 = false ∧
     ∃ a b, outputsOf (classify r).1 = [("version-id", a), ("version-url", b)]) := by
  by_cases hst : r.status < 200 ∨ 300 ≤ r.status
  · left
    rw [classify_httpfail r hst]
    have hb := errBody_outputs r
    simp [outputsOf, outputsOf_append] at hb ⊢
    exact hb
  · cases hj : r.bodyJson with
    | none => left; rw [classify_parsefail r hst hj]; rfl
    | some j =>
        by_cases hnn : j = Json.null
        · left; subst hnn; rw [classify_nullbody r hst hj]; rfl
        · right
          rw [classify_success r hst j hj hnn]
          exact ⟨rfl, rfl, getField j "id", getField j "self", rfl⟩

theorem creation_c7 (inp : Inputs) (env : Env) (hdrs : Headers) :
    outputsOf (creation inp env hdrs).1 = [] ∨
    ((creation inp env hdrs).2 = none ∧
     hasFailed (creation inp env hdrs).1 = false ∧
     ∃ a b, outputsOf (creation inp env hdrs).1 =
       [("version-id", a), ("version-url", b)]) := by
  cases hp : postWithRetryGo env (versionUrl inp) hdrs
      (stringifyPayload (mkPayload inp)) 3 0 with
  | mk evs res =>
      have hflat : evs.all isRetryEvent = true := by
        have h := retry_events_flat env (versionUrl inp) hdrs
          (stringifyPayload (mkPayload inp)) 3 3 0 (by omega)
        rw [hp] at h
        exact h
      have hout : outputsOf evs = [] := outputsOf_of_flat hflat
      have hfl : hasFailed evs = false := hasFailed_of_flat hflat
      cases res with
      | error e =>
          left
          rw [creation_fault inp env hdrs evs e hp]
          simpa [outputsOf] using hout
      | ok r =>
          rw [creation_resolved inp env hdrs evs r hp]
          rcases classify_c7 r with h | ⟨hn, hf, a, bb, hob⟩
          · left
            simp [outputsOf, outputsOf_append, hout, h]
          · right
            refine ⟨hn, ?_, a, bb, ?_⟩
            · simp [hasFailed, hasFailed_append, hfl, hf]
            · simp [outputsOf, outputsOf_append, hout, hob]

theorem runBody_c7 (inp : Inputs) (env : Env) :
    outputsOf (runBody inp env).1 = [] ∨
    ((runBody inp env).2 = none ∧ hasFailed (runBody inp env).1 = false ∧
     ∃ a b, outputsOf (runBody inp env).1 =
       [("version-id", a), ("version-url", b)]) := by
  cases hch : inp.checkIfExists with
  | false =>
      rw [runBody_nocheck inp env hch]
      exact creation_c7 inp env (mkHeaders inp)
  | true =>
      cases hf : findVersion inp env (mkHeaders inp) with
      | mk evs res =>
          have hevs : evs = [Event.httpGet (lookupUrl inp) (mkHeaders inp)] := by
            have := findVersion_events inp env (mkHeaders inp)
            rw [hf] at this
            simpa using this
          subst hevs
          cases res with
          | error e =>
              left
              rw [runBody_check_err inp env _ e hch hf]
              rfl
          | ok vo =>
              cases vo with
              | some v =>
                  right
                  rw [runBody_check_found inp env _ v hch hf]
                  exact ⟨rfl, rfl, getField v "id", getField v "self", rfl⟩
              | none =>
                  rw [runBody_check_miss inp env _ hch hf]
                  rcases creation_c7 inp env (mkHeaders inp) with h | ⟨hn, hfk, a, bb, hob⟩
                  · left
                    simp [outputsOf, outputsOf_append, h]
                  · right
                    refine ⟨hn, ?_, a, bb, ?_⟩
                    · simp [hasFailed, hasFailed_append, hfk]
                    · simp [outputsOf, outputsOf_append, hob]

/-- C7: the outputs version-id and version-url are set at most once each,
and only on a run that ends in success: every run trace either sets no
output at all (in particular on every failure path), or reports no
failure and sets exactly the pair version-id, version-url once. -/
theorem c7_outputs_once_only_on_success (inp : Inputs) (env : Env) :
    outputsOf (run inp env) = [] ∨
    (hasFailed (run inp env) = false ∧
     ∃ a b, outputsOf (run inp env) =
       [("version-id", a), ("version-url", b)]) := by
  have hb := runBody_c7 inp env
  cases hr : runBody inp env with
  | mk evs exn =>
      rw [hr] at hb
      simp only at hb
      cases exn with
      | none =>
          rw [run_nofail inp env evs hr]
          rcases hb with h | ⟨_, hfk, a, bb, hob⟩
          · left
            simpa [outputsOf] using h
          · right
            refine ⟨by simpa [hasFailed] using hfk, a, bb, by simpa [outputsOf] using hob⟩
      | some e =>
          rw [run_fail inp env evs e hr]
          left
          rcases hb with h | ⟨hn, _⟩
          · simp [outputsOf, outputsOf_append, h]
          · exact absurd hn (by simp)

/-- C9: the while(true) retry loop always terminates: whatever the
(possibly infinite) sequence of POST responses, it issues at most
maxRetries + 1 POST calls when started at attempt 0 (the attempt counter
strictly increases and any attempt beyond maxRetries returns regardless
of status), hence at most 4 POSTs in a whole run, which passes
maxRetries = 3.  postWithRetryGo is moreover a total function whose
well-founded recursion on maxRetries + 1 - attempt0 is exactly this
termination argument. -/
theorem c9_retry_loop_terminates :
    (∀ (env : Env) (u : String) (hd : Headers) (b : String) (mr : Nat),
       countPosts (postWithRetryGo env u hd b mr 0).1 ≤ mr + 1) ∧
    (∀ (inp : Inputs) (env : Env), countPosts (run inp env) ≤ 4) := by
  constructor
  · intro env u hd b mr
    have := retry_count_le env u hd b mr mr 0 (by omega)
    simpa using this
  · intro inp env
    exact run_posts_le inp env

theorem emitted_run_safe (inp : Inputs) (env : Env) (s : String)
    (hmem : s = inp.jiraApiToken ∨ s = inp.jiraUserEmail)
    (hne : s.data ≠ []) (hstar : ∀ c ∈ s.data, c ≠ '*') :
    ∀ m ∈ emitted (run inp env), occursIn s m = false := by
  intro m hm
  have hm2 : m ∈ emittedAux [inp.jiraApiToken, inp.jiraUserEmail]
      (Event.debug "Secrets masked in logs" ::
       Event.debug ("Initializing HTTP client for " ++ inp.jiraBaseUrl) ::
       (match runBody inp env with
        | (evs, none) => evs
        | (evs, some e) => evs ++ [Event.setFailed (topFailMsg e)])) := hm
  exact emitted_safe s hne hstar _ [inp.jiraApiToken, inp.jiraUserEmail]
    (by rcases hmem with h | h <;> simp [h]) m hm2

/-- C8: the two credential inputs are registered with the masking sink
before any line is logged, so neither the API token nor the user email
(nonempty, not containing the masking character) ever occurs in
cleartext in any line emitted to the log/diagnostic sink, on any success
or failure path and for every sequence of remote responses. -/
theorem c8_credentials_never_logged (inp : Inputs) (env : Env)
    (h1 : inp.jiraApiToken ≠ "") (h2 : inp.jiraUserEmail ≠ "")
    (h3 : noStar inp.jiraApiToken = true) (h4 : noStar inp.jiraUserEmail = true) :
    ∀ m ∈ emitted (run inp env),
      occursIn inp.jiraApiToken m = false ∧
      occursIn inp.jiraUserEmail m = false := by
  have hne1 : inp.jiraApiToken.data ≠ [] := fun hd => h1 (String.ext hd)
  have hne2 : inp.jiraUserEmail.data ≠ [] := fun hd => h2 (String.ext hd)
  have hstar1 : ∀ c ∈ inp.jiraApiToken.data, c ≠ '*' := by
    intro c hc
    have := List.all_eq_true.mp h3 c hc
    simpa using this
  have hstar2 : ∀ c ∈ inp.jiraUserEmail.data, c ≠ '*' := by
    intro c hc
    have := List.all_eq_true.mp h4 c hc
    simpa using this
  intro m hm
  exact ⟨emitted_run_safe inp env _ (Or.inl rfl) hne1 hstar1 m hm,
         emitted_run_safe inp env _ (Or.inr rfl) hne2 hstar2 m hm⟩

theorem errBody_postEvents (r : HttpResponse) :
    postEventsOf (errBodyEvents r) = [] := by
  unfold errBodyEvents
  cases r.bodyJson <;> rfl

theorem errBody_sleeps (r : HttpResponse) : sleepsOf (errBodyEvents r) = [] := by
  unfold errBodyEvents
  cases r.bodyJson <;> rfl

/-- Concrete inputs with check-if-exists disabled, for witnesses. -/
def inpNoCheck : Inputs :=
  ⟨"https://jira.example.com", "PROJ", "user@example.com", "secrettoken",
   "v1.2.0", "release", false, false⟩

/-- The same concrete inputs with check-if-exists enabled. -/
def inpCheck : Inputs :=
  ⟨"https://jira.example.com", "PROJ", "user@example.com", "secrettoken",
   "v1.2.0", "release", false, true⟩

/-- A rate-limited response. -/
def resp429 : HttpResponse := ⟨some 429, "rate limited", none, "Unexpected token r"⟩

/-- A server-error response. -/
def resp500 : HttpResponse := ⟨some 500, "boom", none, "Unexpected token b"⟩

/-- A successful creation response with the round-trip body of the spec. -/
def resp201 : HttpResponse :=
  ⟨some 201, "(body)", some (Json.obj
    [("id", Json.str "123"), ("self", Json.str "https://x/y/123"),
     ("name", Json.str "v1.2.0")]), ""⟩

/-- A 201 whose body is not parseable JSON. -/
def resp201bad : HttpResponse := ⟨some 201, "not json", none, "Unexpected token n"⟩

/-- A 201 whose body is the JSON literal null. -/
def resp201null : HttpResponse := ⟨some 201, "null", some Json.null, ""⟩

/-- A 201 whose body is an empty JSON array (parses, but has no fields). -/
def resp201arr : HttpResponse := ⟨some 201, "[]", some (Json.arr []), ""⟩

/-- A 404 listing response. -/
def resp404 : HttpResponse :=
  ⟨some 404, "not found", some (Json.obj
    [("errorMessages", Json.arr [Json.str "Project missing"])]), ""⟩

/-- A matching stored version record. -/
def vRecord : Json :=
  Json.obj [("id", Json.str "77"), ("self", Json.str "https://x/y/77"),
            ("name", Json.str "v1.2.0")]

/-- A 200 listing response containing the matching record. -/
def respList200 : HttpResponse :=
  ⟨some 200, "(list)", some (Json.arr [vRecord]), ""⟩

/-- Environment answering every POST with 429. -/
def envAll429 : Env := ⟨.error "unused", fun _ => .ok resp429⟩

/-- Environment answering the POSTs with 500. -/
def env500 : Env := ⟨.error "unused", fun _ => .ok resp500⟩

/-- Environment answering the POSTs with the good 201. -/
def env201 : Env := ⟨.error "unused", fun _ => .ok resp201⟩

/-- Environment answering the POSTs with an unparseable 201. -/
def env201bad : Env := ⟨.error "unused", fun _ => .ok resp201bad⟩

/-- Environment answering the POSTs with a null-body 201. -/
def env201null : Env := ⟨.error "unused", fun _ => .ok resp201null⟩

/-- Environment answering the POSTs with an empty-array 201. -/
def env201arr : Env := ⟨.error "unused", fun _ => .ok resp201arr⟩

/-- Environment whose listing call returns 404. -/
def envLookup404 : Env := ⟨.ok resp404, fun _ => .ok resp201⟩

/-- Environment whose listing call returns 200 with a matching record. -/
def envLookupHit : Env := ⟨.ok respList200, fun _ => .ok resp201⟩

/-- C1 counterexample: with check-if-exists enabled and a listing call
that completes with status 404, the run issues no POST at all and
reports failure — it does not proceed to the creation phase as claimed. -/
theorem c1_counterexample :
    countPosts (run inpCheck envLookup404) = 0 ∧
    hasFailed (run inpCheck envLookup404) = true := by
  constructor <;> rfl

/-- C1 (amended): with check-if-exists enabled, a listing call that
completes at transport level with any non-200 status makes
getProjectVersions throw; the top-level catch reports the failure, the
creation phase is never entered (no POST is built or issued) and no
output is set.  The whole trace is the preamble, the GET and the
failure report. -/
theorem c1_lookup_non200_aborts (inp : Inputs) (env : Env) (r : HttpResponse)
    (hch : inp.checkIfExists = true) (hresp : env.getResp = .ok r)
    (hs : r.status ≠ 200) :
    run inp env =
      Event.setSecret inp.jiraApiToken ::
      Event.setSecret inp.jiraUserEmail ::
      Event.debug "Secrets masked in logs" ::
      Event.debug ("Initializing HTTP client for " ++ inp.jiraBaseUrl) ::
      [Event.httpGet (lookupUrl inp) (mkHeaders inp),
       Event.setFailed
         (topFailMsg ("Failed to fetch versions: HTTP " ++ toString r.status))] ∧
    countPosts (run inp env) = 0 ∧
    outputsOf (run inp env) = [] := by
  have hg := getPV_non200 inp env (mkHeaders inp) r hresp hs
  have hfv := findVersion_err inp env (mkHeaders inp) _ _ hg
  have hrb := runBody_check_err inp env _ _ hch hfv
  have hrun := run_fail inp env _ _ hrb
  refine ⟨?_, ?_, ?_⟩
  · rw [hrun]
    rfl
  · rw [hrun]
    rfl
  · rw [hrun]
    rfl

theorem c1_lookup_non200_aborts_witness :
    (inpCheck.checkIfExists = true ∧ envLookup404.getResp = .ok resp404 ∧
     resp404.status ≠ 200) ∧
    (countPosts (run inpCheck envLookup404) = 0 ∧
     outputsOf (run inpCheck envLookup404) = []) :=
  ⟨⟨rfl, rfl, by decide⟩,
   (c1_lookup_non200_aborts inpCheck envLookup404 resp404 rfl rfl (by decide)).2⟩

/-- C2: when the first four POST responses are all 429, the retry
primitive issues exactly 4 POSTs with the identical url, headers and
body, warns and waits 2000 ms before the 2nd call, 4000 ms before the
3rd and 8000 ms before the 4th, and returns the last 429 response; the
classification step then reports the ordinary HTTP failure for 429. -/
theorem c2_four_429_retries (inp : Inputs) (env : Env)
    (r0 r1 r2 r3 : HttpResponse) (hch : inp.checkIfExists = false)
    (h0 : env.postResps 0 = .ok r0) (hs0 : r0.status = 429)
    (h1 : env.postResps 1 = .ok r1) (hs1 : r1.status = 429)
    (h2 : env.postResps 2 = .ok r2) (hs2 : r2.status = 429)
    (h3 : env.postResps 3 = .ok r3) (hs3 : r3.status = 429) :
    postWithRetryGo env (versionUrl inp) (mkHeaders inp)
        (stringifyPayload (mkPayload inp)) 3 0 =
      ([Event.httpPost (versionUrl inp) (mkHeaders inp)
          (stringifyPayload (mkPayload inp)),
        Event.warning (warnMsg 2000 1 3), Event.sleep 2000,
        Event.httpPost (versionUrl inp) (mkHeaders inp)
          (stringifyPayload (mkPayload inp)),
        Event.warning (warnMsg 4000 2 3), Event.sleep 4000,
        Event.httpPost (versionUrl inp) (mkHeaders inp)
          (stringifyPayload (mkPayload inp)),
        Event.warning (warnMsg 8000 3 3), Event.sleep 8000,
        Event.httpPost (versionUrl inp) (mkHeaders inp)
          (stringifyPayload (mkPayload inp))],
       .ok r3) ∧
    postEventsOf (run inp env) =
      List.replicate 4 (Event.httpPost (versionUrl inp) (mkHeaders inp)
        (stringifyPayload (mkPayload inp))) ∧
    sleepsOf (run inp env) = [2000, 4000, 8000] ∧
    Event.setFailed (httpFailMsg 429) ∈ run inp env ∧
    hasFailed (run inp env) = true := by
  have e3 : postWithRetryGo env (versionUrl inp) (mkHeaders inp)
      (stringifyPayload (mkPayload inp)) 3 3 =
      ([Event.httpPost (versionUrl inp) (mkHeaders inp)
          (stringifyPayload (mkPayload inp))], .ok r3) :=
    retry_done env (versionUrl inp) (mkHeaders inp)
      (stringifyPayload (mkPayload inp)) 3 3 r3 h3
      (fun hh => absurd hh.2 (by omega))
  have e2 : postWithRetryGo env (versionUrl inp) (mkHeaders inp)
      (stringifyPayload (mkPayload inp)) 3 2 =
      (Event.httpPost (versionUrl inp) (mkHeaders inp)
         (stringifyPayload (mkPayload inp)) ::
       Event.warning (warnMsg 8000 3 3) :: Event.sleep 8000 ::
       [Event.httpPost (versionUrl inp) (mkHeaders inp)
          (stringifyPayload (mkPayload inp))], .ok r3) := by
    have h := retry_again env (versionUrl inp) (mkHeaders inp)
      (stringifyPayload (mkPayload inp)) 3 2 r2 h2 hs2 (by omega)
    rw [e3] at h
    norm_num at h
    exact h
  have e1 : postWithRetryGo env (versionUrl inp) (mkHeaders inp)
      (stringifyPayload (mkPayload inp)) 3 1 =
      (Event.httpPost (versionUrl inp) (mkHeaders inp)
         (stringifyPayload (mkPayload inp)) ::
       Event.warning (warnMsg 4000 2 3) :: Event.sleep 4000 ::
       (Event.httpPost (versionUrl inp) (mkHeaders inp)
          (stringifyPayload (mkPayload inp)) ::
        Event.warning (warnMsg 8000 3 3) :: Event.sleep 8000 ::
        [Event.httpPost (versionUrl inp) (mkHeaders inp)
           (stringifyPayload (mkPayload inp))]), .ok r3) := by
    have h := retry_again env (versionUrl inp) (mkHeaders inp)
      (stringifyPayload (mkPayload inp)) 3 1 r1 h1 hs1 (by omega)
    rw [e2] at h
    norm_num at h
    exact h
  have e0 : postWithRetryGo env (versionUrl inp) (mkHeaders inp)
      (stringifyPayload (mkPayload inp)) 3 0 =
      ([Event.httpPost (versionUrl inp) (mkHeaders inp)
          (stringifyPayload (mkPayload inp)),
        Event.warning (warnMsg 2000 1 3), Event.sleep 2000,
        Event.httpPost (versionUrl inp) (mkHeaders inp)
          (stringifyPayload (mkPayload inp)),
        Event.warning (warnMsg 4000 2 3), Event.sleep 4000,
        Event.httpPost (versionUrl inp) (mkHeaders inp)
          (stringifyPayload (mkPayload inp)),
        Event.warning (warnMsg 8000 3 3), Event.sleep 8000,
        Event.httpPost (versionUrl inp) (mkHeaders inp)
          (stringifyPayload (mkPayload inp))], .ok r3) := by
    have h := retry_again env (versionUrl inp) (mkHeaders inp)
      (stringifyPayload (mkPayload inp)) 3 0 r0 h0 hs0 (by omega)
    rw [e1] at h
    norm_num at h
    exact h
  have hst3 : r3.status < 200 ∨ 300 ≤ r3.status := by omega
  have hcl := classify_httpfail r3 hst3
  have hcl2 : (classify r3).2 = none := by rw [hcl]
  have hrb := runBody_nocheck inp env hch
  rw [creation_resolved inp env (mkHeaders inp) _ r3 e0, hcl2] at hrb
  have hrun := run_nofail inp env _ hrb
  refine ⟨e0, ?_, ?_, ?_, ?_⟩
  · rw [hrun]
    simp only [hcl]
    simp [postEventsOf, postEventsOf_append, errBody_postEvents, List.replicate]
  · rw [hrun]
    simp only [hcl]
    simp [sleepsOf, sleepsOf_append, errBody_sleeps]
  · rw [hrun]
    simp only [hcl]
    rw [hs3] at hcl ⊢
    simp [List.mem_append, List.mem_cons, hs3]
  · rw [hrun]
    simp only [hcl]
    simp [hasFailed, hasFailed_append]

theorem c2_four_429_retries_witness :
    (inpNoCheck.checkIfExists = false ∧ envAll429.postResps 0 = .ok resp429 ∧
     resp429.status = 429) ∧
    (postEventsOf (run inpNoCheck envAll429) =
       List.replicate 4 (Event.httpPost (versionUrl inpNoCheck)
         (mkHeaders inpNoCheck) (stringifyPayload (mkPayload inpNoCheck))) ∧
     sleepsOf (run inpNoCheck envAll429) = [2000, 4000, 8000] ∧
     Event.setFailed (httpFailMsg 429) ∈ run inpNoCheck envAll429) :=
  ⟨⟨rfl, rfl, rfl⟩,
   ⟨(c2_four_429_retries inpNoCheck envAll429 resp429 resp429 resp429 resp429
       rfl rfl rfl rfl rfl rfl rfl rfl rfl).2.1,
    (c2_four_429_retries inpNoCheck envAll429 resp429 resp429 resp429 resp429
       rfl rfl rfl rfl rfl rfl rfl rfl rfl).2.2.1,
    (c2_four_429_retries inpNoCheck envAll429 resp429 resp429 resp429 resp429
       rfl rfl rfl rfl rfl rfl rfl rfl rfl).2.2.2.1⟩⟩

/-- C3: the first non-429 POST response ends the retry loop at once and
is returned unchanged (after k straight 429s within the budget the loop
makes exactly k + 1 POSTs); in particular a first response of 500 makes
exactly one POST and the run reports the HTTP 500 failure. -/
theorem c3_non429_stops_loop :
    (∀ (env : Env) (u : String) (hd : Headers) (b : String) (k : Nat)
       (r : HttpResponse), k ≤ 3 →
       (∀ i, i < k → ∃ ri, env.postResps i = .ok ri ∧ ri.status = 429) →
       env.postResps k = .ok r → r.status ≠ 429 →
       (postWithRetryGo env u hd b 3 0).2 = .ok r ∧
       countPosts (postWithRetryGo env u hd b 3 0).1 = k + 1) ∧
    (∀ (inp : Inputs) (env : Env) (r : HttpResponse),
       inp.checkIfExists = false → env.postResps 0 = .ok r → r.status = 500 →
       countPosts (run inp env) = 1 ∧
       Event.setFailed (httpFailMsg 500) ∈ run inp env) := by
  constructor
  · intro env u hd b k r hk h429 hr hs
    exact retry_scan env u hd b 3 k 0 r (by omega)
      (fun i hi => by simpa using h429 i hi) (by simpa using hr) hs
  · intro inp env r hch h0 hs
    have hgo := retry_single env (versionUrl inp) (mkHeaders inp)
      (stringifyPayload (mkPayload inp)) r h0 (by omega)
    have hst : r.status < 200 ∨ 300 ≤ r.status := by omega
    have hcl := classify_httpfail r hst
    have hcl2 : (classify r).2 = none := by rw [hcl]
    have hrb := runBody_nocheck inp env hch
    rw [creation_resolved inp env (mkHeaders inp) _ r hgo, hcl2] at hrb
    have hrun := run_nofail inp env _ hrb
    constructor
    · rw [hrun]
      simp [countPosts, countPosts_append, classify_posts r]
    · rw [hrun]
      simp only [hcl]
      rw [hs]
      simp [List.mem_append, List.mem_cons]

theorem c3_non429_stops_loop_witness :
    (inpNoCheck.checkIfExists = false ∧ env500.postResps 0 = .ok resp500 ∧
     resp500.status = 500) ∧
    (countPosts (run inpNoCheck env500) = 1 ∧
     Event.setFailed (httpFailMsg 500) ∈ run inpNoCheck env500) :=
  ⟨⟨rfl, rfl, rfl⟩, c3_non429_stops_loop.2 inpNoCheck env500 resp500 rfl rfl rfl⟩

/-- C4: a final POST response with a 2xx status whose body parses as a
JSON object ends the run in success; version-id is set to the object id
field and version-url to its self field. -/
theorem c4_success_sets_outputs (inp : Inputs) (env : Env) (r : HttpResponse)
    (fs : List (String × Json)) (hch : inp.checkIfExists = false)
    (h0 : env.postResps 0 = .ok r) (h200 : 200 ≤ r.status)
    (h300 : r.status < 300) (hb : r.bodyJson = some (Json.obj fs)) :
    hasFailed (run inp env) = false ∧
    outputsOf (run inp env) =
      [("version-id", getField (Json.obj fs) "id"),
       ("version-url", getField (Json.obj fs) "self")] := by
  have hgo := retry_single env (versionUrl inp) (mkHeaders inp)
    (stringifyPayload (mkPayload inp)) r h0 (by omega)
  have hst : ¬(r.status < 200 ∨ 300 ≤ r.status) := by omega
  have hcl := classify_success r hst (Json.obj fs) hb (fun h => Json.noConfusion h)
  have hcl2 : (classify r).2 = none := by rw [hcl]
  have hrb := runBody_nocheck inp env hch
  rw [creation_resolved inp env (mkHeaders inp) _ r hgo, hcl2] at hrb
  have hrun := run_nofail inp env _ hrb
  rw [hrun]
  simp only [hcl]
  exact ⟨rfl, rfl⟩

theorem c4_success_sets_outputs_witness :
    (inpNoCheck.checkIfExists = false ∧ env201.postResps 0 = .ok resp201 ∧
     200 ≤ resp201.status ∧ resp201.status < 300 ∧
     resp201.bodyJson = some (Json.obj
       [("id", Json.str "123"), ("self", Json.str "https://x/y/123"),
        ("name", Json.str "v1.2.0")])) ∧
    (hasFailed (run inpNoCheck env201) = false ∧
     outputsOf (run inpNoCheck env201) =
       [("version-id", some (Json.str "123")),
        ("version-url", some (Json.str "https://x/y/123"))]) := by
  refine ⟨⟨rfl, rfl, by decide, by decide, rfl⟩, ?_⟩
  have h := c4_success_sets_outputs inpNoCheck env201 resp201
    [("id", Json.str "123"), ("self", Json.str "https://x/y/123"),
     ("name", Json.str "v1.2.0")] rfl rfl (by decide) (by decide) rfl
  exact ⟨h.1, h.2⟩

/-- No HTTP-failure message equals the parse-failure message: their
first characters already differ. -/
theorem parse_msg_distinct (s : String) :
    parseFailMsg ≠ "Version creation failed with HTTP " ++ s := by
  intro h
  have hd : parseFailMsg.data.head? =
      ("Version creation failed with HTTP " ++ s).data.head? := by rw [h]
  rw [String.data_append] at hd
  have hd2 : (some 'F' : Option Char) = some 'V' := hd
  exact absurd hd2 (by decide)

/-- C5: a final 2xx response whose body is not parseable JSON makes the
run fail with the fixed parse-failure message, which differs from every
HTTP-failure message, and no output is set. -/
theorem c5_parse_failure_fatal (inp : Inputs) (env : Env) (r : HttpResponse)
    (hch : inp.checkIfExists = false) (h0 : env.postResps 0 = .ok r)
    (h200 : 200 ≤ r.status) (h300 : r.status < 300) (hb : r.bodyJson = none) :
    hasFailed (run inp env) = true ∧
    Event.setFailed parseFailMsg ∈ run inp env ∧
    outputsOf (run inp env) = [] ∧
    ∀ s : Nat, parseFailMsg ≠ httpFailMsg s := by
  have hgo := retry_single env (versionUrl inp) (mkHeaders inp)
    (stringifyPayload (mkPayload inp)) r h0 (by omega)
  have hst : ¬(r.status < 200 ∨ 300 ≤ r.status) := by omega
  have hcl := classify_parsefail r hst hb
  have hcl2 : (classify r).2 = none := by rw [hcl]
  have hrb := runBody_nocheck inp env hch
  rw [creation_resolved inp env (mkHeaders inp) _ r hgo, hcl2] at hrb
  have hrun := run_nofail inp env _ hrb
  rw [hrun]
  simp only [hcl]
  refine ⟨rfl, ?_, rfl, fun s => parse_msg_distinct (toString s)⟩
  simp [List.mem_append, List.mem_cons]

theorem c5_parse_failure_fatal_witness :
    (inpNoCheck.checkIfExists = false ∧ env201bad.postResps 0 = .ok resp201bad ∧
     200 ≤ resp201bad.status ∧ resp201bad.status < 300 ∧
     resp201bad.bodyJson = none) ∧
    (hasFailed (run inpNoCheck env201bad) = true ∧
     Event.setFailed parseFailMsg ∈ run inpNoCheck env201bad ∧
     outputsOf (run inpNoCheck env201bad) = []) := by
  refine ⟨⟨rfl, rfl, by decide, by decide, rfl⟩, ?_⟩
  have h := c5_parse_failure_fatal inpNoCheck env201bad resp201bad
    rfl rfl (by decide) (by decide) rfl
  exact ⟨h.1, h.2.1, h.2.2.1⟩

/-- C6: with check-if-exists enabled, a 200 listing whose parsed body is
a sequence of records containing a name match, the first matching record
(under exact, case-sensitive string equality) is selected: no POST is
ever issued, the run succeeds, and the outputs are that record id and
self fields.  A record differing only in letter case does not match. -/
theorem c6_lookup_hit (inp : Inputs) (env : Env) (r : HttpResponse)
    (items : List Json) (v : Json) (hch : inp.checkIfExists = true)
    (hresp : env.getResp = .ok r) (hs : r.status = 200)
    (hb : r.bodyJson = some (Json.arr items))
    (hobj : ∀ j ∈ items, isObjB j = true)
    (hfind : items.find?
        (fun j => strictEqStr (getField j "name") inp.versionName) = some v) :
    countPosts (run inp env) = 0 ∧
    hasFailed (run inp env) = false ∧
    outputsOf (run inp env) =
      [("version-id", getField v "id"), ("version-url", getField v "self")] ∧
    strictEqStr (getField (Json.obj [("name", Json.str "V1.2.0")]) "name")
      "v1.2.0" = false := by
  have hg := getPV_ok inp env (mkHeaders inp) r (Json.arr items) hresp hs hb
  have hfv := findVersion_arr inp env (mkHeaders inp) _ items hg
  have hff := findFirst_eq_find inp.versionName items hobj
  rw [hff, hfind] at hfv
  have hrb := runBody_check_found inp env _ v hch hfv
  have hrun := run_nofail inp env _ hrb
  rw [hrun]
  exact ⟨rfl, rfl, rfl, by decide⟩

theorem c6_lookup_hit_witness :
    (inpCheck.checkIfExists = true ∧ envLookupHit.getResp = .ok respList200 ∧
     respList200.status = 200 ∧
     respList200.bodyJson = some (Json.arr [vRecord]) ∧
     (∀ j ∈ [vRecord], isObjB j = true) ∧
     [vRecord].find? (fun j => strictEqStr (getField j "name")
       inpCheck.versionName) = some vRecord) ∧
    (countPosts (run inpCheck envLookupHit) = 0 ∧
     hasFailed (run inpCheck envLookupHit) = false ∧
     outputsOf (run inpCheck envLookupHit) =
       [("version-id", some (Json.str "77")),
        ("version-url", some (Json.str "https://x/y/77"))]) := by
  refine ⟨⟨rfl, rfl, rfl, rfl, by decide, rfl⟩, ?_⟩
  have h := c6_lookup_hit inpCheck envLookupHit respList200 [vRecord] vRecord
    rfl rfl rfl rfl (by decide) rfl
  exact ⟨h.1, h.2.1, h.2.2.1⟩

theorem c8_credentials_never_logged_witness :
    (inpNoCheck.jiraApiToken ≠ "" ∧ inpNoCheck.jiraUserEmail ≠ "" ∧
     noStar inpNoCheck.jiraApiToken = true ∧
     noStar inpNoCheck.jiraUserEmail = true) ∧
    (∀ m ∈ emitted (run inpNoCheck env201),
       occursIn inpNoCheck.jiraApiToken m = false ∧
       occursIn inpNoCheck.jiraUserEmail m = false) :=
  ⟨⟨by decide, by decide, by decide, by decide⟩,
   c8_credentials_never_logged inpNoCheck env201
     (by decide) (by decide) (by decide) (by decide)⟩

/-- C10 counterexample: the JSON body null parses as JSON and lacks the
id, self and name fields, yet the run does not end in success: reading
.name of null throws and the run fails with no outputs. -/
theorem c10_counterexample :
    hasFailed (run inpNoCheck env201null) = true ∧
    outputsOf (run inpNoCheck env201null) = [] := by
  have hgo := retry_single env201null (versionUrl inpNoCheck)
    (mkHeaders inpNoCheck) (stringifyPayload (mkPayload inpNoCheck))
    resp201null rfl (by decide)
  have hst : ¬(resp201null.status < 200 ∨ 300 ≤ resp201null.status) := by decide
  have hcl := classify_nullbody resp201null hst rfl
  have hcl2 : (classify resp201null).2 =
      some "Cannot read properties of null (reading name)" := by rw [hcl]
  have hrb := runBody_nocheck inpNoCheck env201null rfl
  rw [creation_resolved inpNoCheck env201null (mkHeaders inpNoCheck) _
    resp201null hgo, hcl2] at hrb
  have hrun := run_fail inpNoCheck env201null _ _ hrb
  rw [hrun]
  simp only [hcl]
  exact ⟨by rfl, by rfl⟩

/-- C10 (amended): for a final 2xx response whose body parses as JSON
other than null and lacks the id and self fields (a JSON array, number,
string, boolean, or an object without them), the run still ends in
success and sets both outputs to the missing (undefined) values — no
validation of the record fields is performed; a null body instead throws
on property access and fails the run (see the counterexample). -/
theorem c10_missing_fields_still_success (inp : Inputs) (env : Env)
    (r : HttpResponse) (j : Json) (hch : inp.checkIfExists = false)
    (h0 : env.postResps 0 = .ok r) (h200 : 200 ≤ r.status)
    (h300 : r.status < 300) (hb : r.bodyJson = some j) (hnn : j ≠ Json.null)
    (hid : getField j "id" = none) (hself : getField j "self" = none) :
    hasFailed (run inp env) = false ∧
    outputsOf (run inp env) =
      [("version-id", none), ("version-url", none)] := by
  have hgo := retry_single env (versionUrl inp) (mkHeaders inp)
    (stringifyPayload (mkPayload inp)) r h0 (by omega)
  have hst : ¬(r.status < 200 ∨ 300 ≤ r.status) := by omega
  have hcl := classify_success r hst j hb hnn
  have hcl2 : (classify r).2 = none := by rw [hcl]
  have hrb := runBody_nocheck inp env hch
  rw [creation_resolved inp env (mkHeaders inp) _ r hgo, hcl2] at hrb
  have hrun := run_nofail inp env _ hrb
  rw [hrun]
  simp only [hcl, hid, hself]
  exact ⟨rfl, rfl⟩

theorem c10_missing_fields_still_success_witness :
    (inpNoCheck.checkIfExists = false ∧
     env201arr.postResps 0 = .ok resp201arr ∧
     200 ≤ resp201arr.status ∧ resp201arr.status < 300 ∧
     resp201arr.bodyJson = some (Json.arr []) ∧ Json.arr [] ≠ Json.null ∧
     getField (Json.arr []) "id" = none ∧
     getField (Json.arr []) "self" = none) ∧
    (hasFailed (run inpNoCheck env201arr) = false ∧
     outputsOf (run inpNoCheck env201arr) =
       [("version-id", none), ("version-url", none)]) := by
  refine ⟨⟨rfl, rfl, by decide, by decide, rfl,
           fun h => Json.noConfusion h, rfl, rfl⟩, ?_⟩
  exact c10_missing_fields_still_success inpNoCheck env201arr resp201arr
    (Json.arr []) rfl rfl (by decide) (by decide) rfl
    (fun h => Json.noConfusion h) rfl rfl
